import Mathlib

/-!
# Verification of the LLM Parliament turn-sequencing core

Shallow embedding of `backend/debate_graph.py` (moderator, agent and tool
nodes, the two routers, and the compiled engine loop), `backend/state.py`
(the debate state) and `backend/tools.py` (the tool implementations).

LLM calls are modelled as oracle functions supplied to each node: the node
passes the full state (which determines the prompt it builds) and, for the
agent nodes, the bound tool catalog, and the oracle returns the generated
content together with any tool calls the model elected to emit.
-/

namespace Parliament

/-- LangChain message discriminator: `HumanMessage.type = "human"`,
`AIMessage.type = "ai"`, `ToolMessage.type = "tool"`. -/
inductive MsgType
  | human
  | ai
  | tool
deriving DecidableEq, Repr

/-- One entry of `AIMessage.tool_calls`. -/
structure ToolCall where
  id : String
  name : String
  args : String
deriving DecidableEq, Repr

/-- A LangChain message as the routing code observes it.  `name` is the
optional sender tag (`None` in Python becomes `none`); Python's
`hasattr(msg, "tool_calls")` holds exactly for AI messages, so a non-AI
message is modelled with an empty `tool_calls` list and the embedding only
consults `tool_calls` guarded by `type = .ai`, mirroring the short-circuit
in the source. -/
structure Message where
  type : MsgType
  name : Option String
  content : String
  tool_calls : List ToolCall
  tool_call_id : Option String
deriving DecidableEq, Repr

/-- Placeholder used where Python would index into a list; every theorem
about the routing core works on states whose message log is non-empty, as
the engine guarantees. -/
def dummyMsg : Message := ⟨.human, none, "", [], none⟩

instance : Inhabited Message := ⟨dummyMsg⟩

/-- `backend/state.py` `DebateConfig` (fields that the routing core reads;
the role-model names and the ascii graph only feed prompt text). -/
structure DebateConfig where
  topic : String
  max_rounds : Nat
  enable_tools : Bool
deriving DecidableEq, Repr

/-- `backend/state.py` `DebateState`. -/
structure DebateState where
  messages : List Message
  round_count : Nat
  next_speaker : String
  config : DebateConfig
deriving DecidableEq, Repr

/-- A node's return value: the partial state update langgraph merges.
`add_messages` appends; an absent key leaves the field unchanged. -/
structure Patch where
  messages : List Message
  next_speaker : Option String
  round_count : Option Nat
deriving DecidableEq, Repr

/-- Merge a node patch into the state (langgraph state update with the
`add_messages` reducer on `messages`). -/
def applyPatch (s : DebateState) (p : Patch) : DebateState :=
  { s with
    messages := s.messages ++ p.messages
    next_speaker := p.next_speaker.getD s.next_speaker
    round_count := p.round_count.getD s.round_count }

/-- `tools.get_tools_list()`: the catalog bound to the agent models
(two tools registered on the FastMCP server). -/
def get_tools_list : List String := ["search_web", "get_debate_rules"]

/-- An LLM response from a tool-bound model: prose plus elected tool calls. -/
structure GenOut where
  content : String
  tool_calls : List ToolCall
deriving DecidableEq, Repr

/-- Helper: an `AIMessage` carrying a sender name and no tool calls (what
`llm.invoke` returns for the Moderator, whose model is not tool-bound). -/
def aiMsg (n c : String) : Message := ⟨.ai, some n, c, [], none⟩

/-- Sender names the moderator's backward scan accepts
(`debate_graph.py` line 85). -/
def scanNames : List (Option String) :=
  [some "Proponent", some "Critic", some "Government", some "Opposition"]

/-- The moderator's backward scan for the last agent who spoke
(`debate_graph.py` lines 83-92): walk the log from the end and return the
name of the first AI message whose name is in `scanNames`. -/
def findSpeakerBack (msgs : List Message) : Option String :=
  match msgs.reverse.find? (fun m => decide (m.type = .ai ∧ m.name ∈ scanNames)) with
  | some m => m.name
  | none => none

/-- `last_speaker_name` as the moderator's transition branch computes it
(`debate_graph.py` lines 74-94): for a tool message, scan backward and fall
back to the literal string `"Unknown"`; otherwise take the last message's
own (optional) name attribute. -/
def resolvedSpeaker (s : DebateState) : Option String :=
  let last := s.messages.getLastD dummyMsg
  if last.type = .tool then some ((findSpeakerBack s.messages).getD "Unknown")
  else last.name

/-- `moderator_node` (`debate_graph.py` lines 11-170).  `gen` is the content
returned by the moderator's LLM call (the model is not tool-bound, so its
response carries no tool calls).  Branches in source order:
opening (exactly one message and it is human), closing
(`round_count >= max_rounds`), then the speaker transition. -/
def moderator_node (gen : String) (s : DebateState) : Patch :=
  if s.messages.length = 1 ∧ (s.messages.headD dummyMsg).type = .human then
    ⟨[aiMsg "Moderator" gen], some "pro", some 0⟩
  else if s.config.max_rounds ≤ s.round_count then
    ⟨[aiMsg "Moderator" gen], some "finish", none⟩
  else
    let sp := resolvedSpeaker s
    if sp = some "Proponent" then
      ⟨[aiMsg "Moderator" gen], some "con", some s.round_count⟩
    else if sp = some "Critic" then
      ⟨[aiMsg "Moderator" gen], some "pro", some (s.round_count + 1)⟩
    else
      ⟨[aiMsg "Moderator" gen], some (if s.round_count = 0 then "pro" else "con"),
        some s.round_count⟩

/-- `pro_agent_node` (`debate_graph.py` lines 172-247).  The node binds the
full tool catalog to its model unconditionally (`llm.bind_tools(tools)`)
— it never consults `config.enable_tools` — and appends one AI message
named "Proponent" carrying whatever tool calls the model emitted.  The
source's branch on whether the last message is a tool result only changes
the prompt text, which the oracle sees through the state argument. -/
def pro_agent_node (llm : List String → DebateState → GenOut) (s : DebateState) : Patch :=
  let out := llm get_tools_list s
  ⟨[⟨.ai, some "Proponent", out.content, out.tool_calls, none⟩], none, none⟩

/-- `con_agent_node` (`debate_graph.py` lines 249-296), identical to the
Proponent node up to the sender name "Critic". -/
def con_agent_node (llm : List String → DebateState → GenOut) (s : DebateState) : Patch :=
  let out := llm get_tools_list s
  ⟨[⟨.ai, some "Critic", out.content, out.tool_calls, none⟩], none, none⟩

/-- Modelled from the spec: the ToolExecutor node is langgraph's prebuilt
`ToolNode` (assembled in `build_debate_graph` but not defined in this
repository).  Per spec section 4.3 it emits one ToolResult message per
pending tool call on the most recent agent message, carrying the invoked
tool's result text and the originating call id. -/
def tool_node (run : ToolCall → String) (s : DebateState) : Patch :=
  let last := s.messages.getLastD dummyMsg
  ⟨last.tool_calls.map (fun tc => ⟨.tool, none, run tc, [], some tc.id⟩), none, none⟩

/-- The graph nodes plus the two pseudo-states of the compiled engine:
`terminal` is langgraph's `END`; `error` marks a Python exception escaping
a router (indexing `messages[-1]` on an empty log), which never happens on
engine-reachable states. -/
inductive Node
  | moderator
  | pro_agent
  | con_agent
  | tools
  | terminal
  | error
deriving DecidableEq, Repr

/-- The senders the main router treats as debate agents
(`debate_graph.py` line 325). -/
def agentSenders : List (Option String) := [some "Proponent", some "Critic"]

/-- `router` (`debate_graph.py` lines 313-336), the conditional edge used
after the moderator and both agent nodes.  `none` models the `IndexError`
Python would raise on an empty log (`messages[-1]`). -/
def router (s : DebateState) : Option Node :=
  match s.messages.getLast? with
  | none => none
  | some last =>
    if last.type = .ai ∧ last.tool_calls ≠ [] then some .tools
    else if last.name ∈ agentSenders then some .moderator
    else if s.next_speaker = "finish" then some .terminal
    else if s.next_speaker = "pro" then some .pro_agent
    else if s.next_speaker = "con" then some .con_agent
    else some .moderator

/-- The tool router's caller scan (`debate_graph.py` lines 359-363): the
name of the nearest AI message that issued tool calls, defaulting to the
literal Python string `"unknown"` when none exists. -/
def callerOf (msgs : List Message) : Option String :=
  match msgs.reverse.find? (fun m => decide (m.type = .ai ∧ m.tool_calls ≠ [])) with
  | some m => m.name
  | none => some "unknown"

/-- The loop-protection count (`debate_graph.py` lines 368-375), expressed
on the reversed log: walking backward over adjacent pairs, a tool message
directly preceded by an AI message named `caller` adds one; an AI message
from a different sender stops the walk; anything else is skipped. -/
def chainCountAux (caller : Option String) : List Message → Nat
  | m :: p :: rest =>
    if m.type = .tool ∧ p.type = .ai ∧ p.name = caller then
      chainCountAux caller (p :: rest) + 1
    else if m.type = .ai ∧ m.name ≠ caller then 0
    else chainCountAux caller (p :: rest)
  | _ => 0

/-- `tool_chain_count` for a message log (the Python loop runs over indices
`len-1` down to `1`, pairing each message with its predecessor). -/
def tool_chain_count (caller : Option String) (msgs : List Message) : Nat :=
  chainCountAux caller msgs.reverse

/-- `tool_router` (`debate_graph.py` lines 354-386), the conditional edge
used after the tool node: force a Moderator handover once the chain count
reaches 2, otherwise return to the calling agent, defaulting to the
Moderator.  `none` models the `IndexError` on an empty log. -/
def tool_router (s : DebateState) : Option Node :=
  match s.messages.getLast? with
  | none => none
  | some _ =>
    let caller := callerOf s.messages
    if 2 ≤ tool_chain_count caller s.messages then some .moderator
    else if caller = some "Proponent" then some .pro_agent
    else if caller = some "Critic" then some .con_agent
    else some .moderator

/-- The LLM and tool collaborators of one run: the moderator's model (not
tool-bound, so it yields plain content), the two agents' tool-bound models
(receiving the bound catalog), and the tool executor. -/
structure Oracle where
  moderatorGen : DebateState → String
  proGen : List String → DebateState → GenOut
  conGen : List String → DebateState → GenOut
  toolExec : ToolCall → String

/-- A point of the compiled graph's execution: the node about to run and
the current merged state. -/
structure Exec where
  node : Node
  state : DebateState
deriving DecidableEq, Repr

/-- Run one node against the state, producing its patch. -/
def runNode (O : Oracle) (n : Node) (s : DebateState) : Patch :=
  match n with
  | .moderator => moderator_node (O.moderatorGen s) s
  | .pro_agent => pro_agent_node O.proGen s
  | .con_agent => con_agent_node O.conGen s
  | .tools => tool_node O.toolExec s
  | .terminal => ⟨[], none, none⟩
  | .error => ⟨[], none, none⟩

/-- Which conditional edge follows a node in `build_debate_graph`:
`tool_router` after the tool node, `router` after the others. -/
def routeFrom (n : Node) (s : DebateState) : Option Node :=
  match n with
  | .tools => tool_router s
  | _ => router s

/-- One engine step: run the pending node, merge its patch, and consult the
node's conditional edge for the next node.  `terminal` and `error` are
absorbing. -/
def step (O : Oracle) (e : Exec) : Exec :=
  match e.node with
  | .terminal => e
  | .error => e
  | n =>
    let s := applyPatch e.state (runNode O n e.state)
    ⟨(routeFrom n s).getD .error, s⟩

/-- The initial human message (`main.py`: `HumanMessage(content=...)`,
no sender name). -/
def humanMsg (t : String) : Message := ⟨.human, none, t, [], none⟩

/-- The initial execution point (`main.py` lines 128-134: one human message
holding the topic, `round_count = 0`, `next_speaker = "moderator"`, entry
node moderator). -/
def initExec (cfg : DebateConfig) (t : String) : Exec :=
  ⟨.moderator, ⟨[humanMsg t], 0, "moderator", cfg⟩⟩

/-- Iterate the engine. -/
def runN (O : Oracle) : Nat → Exec → Exec
  | 0, e => e
  | n + 1, e => runN O n (step O e)

/-- The sequence of nodes the engine executes, reading at most `n` steps
(`terminal` and `error` execute nothing). -/
def visited (O : Oracle) : Nat → Exec → List Node
  | 0, _ => []
  | n + 1, e =>
    match e.node with
    | .terminal => []
    | .error => []
    | _ => e.node :: visited O n (step O e)

/-- The executions reachable by the engine from some initial request. -/
inductive Reaches (O : Oracle) : Exec → Prop
  | init (cfg : DebateConfig) (t : String) : Reaches O (initExec cfg t)
  | next {e : Exec} : Reaches O e → Reaches O (step O e)

/-- The moderator transition that closes a Proponent+Critic pair: the
moderator runs, neither the opening nor the closing branch applies, and the
resolved last agent speaker is the Critic.  This is the round-increment
condition of `moderator_node`. -/
def criticTransition (e : Exec) : Prop :=
  e.node = .moderator ∧
  ¬(e.state.messages.length = 1 ∧ (e.state.messages.headD dummyMsg).type = .human) ∧
  ¬(e.state.config.max_rounds ≤ e.state.round_count) ∧
  resolvedSpeaker e.state = some "Critic"

instance (e : Exec) : Decidable (criticTransition e) := by
  unfold criticTransition
  infer_instance

/-! ## Model of `backend/tools.py`

Python exceptions are made explicit: a computation that may raise returns
`Res`, where `Res.exc` carries the exception text.  The HTTP transport and
the JSON body are inputs of the embedded `search_web`, since the source
consumes them through fallible collaborator calls. -/

/-- Result of a Python computation: a normal value or a raised exception. -/
inductive Res (α : Type)
  | ok (val : α)
  | exc (err : String)
deriving DecidableEq, Repr

/-- One entry of Brave's `data["web"]["results"]`, with the optional fields
`search_web` reads via `.get`. -/
structure BraveItem where
  title : Option String
  url : Option String
  description : Option String
deriving DecidableEq, Repr

/-- An HTTP response as `search_web` consumes it: the status code and the
outcome of `resp.json()` (which may itself raise); `ok none` models a body
without the `web`/`results` keys. -/
structure HttpResp where
  status_code : Nat
  json : Res (Option (List BraveItem))
deriving DecidableEq, Repr

/-- The environment `search_web` runs against: the optional
`BRAVE_API_KEY` and the transport outcome of the `httpx` GET
(`exc` = a transport exception). -/
structure SearchEnv where
  api_key : Option String
  http : Res HttpResp
deriving DecidableEq, Repr

/-- Formatting of one search result (`tools.py` lines 44-47). -/
def formatItem (it : BraveItem) : String :=
  "SOURCE: " ++ it.title.getD "No Title" ++ "\nLINK: " ++ it.url.getD "No URL" ++
    "\nSUMMARY: " ++ it.description.getD "No Description" ++ "\n"

/-- The `try` block of `search_web` (`tools.py` lines 31-52): the GET, the
status check, the JSON parse and the result formatting; any raise escapes
as `Res.exc`. -/
def searchTryBlock (env : SearchEnv) : Res String :=
  match env.http with
  | .exc e => .exc e
  | .ok resp =>
    if resp.status_code ≠ 200 then
      .ok ("Search failed with status " ++ toString resp.status_code)
    else
      match resp.json with
      | .exc e => .exc e
      | .ok none => .ok "No results found."
      | .ok (some items) =>
        let results := items.map formatItem
        if results.isEmpty then .ok "No results found."
        else .ok (String.intercalate "\n" results)

/-- `search_web` (`tools.py` lines 14-55): the missing-key early return,
then the `try`/`except` wrapper that converts any exception into the
"Search error: ..." text. -/
def search_web (env : SearchEnv) : Res String :=
  match env.api_key with
  | none => .ok "Error: Web Search is disabled (No BRAVE_API_KEY found in .env)."
  | some _ =>
    match searchTryBlock env with
    | .ok t => .ok t
    | .exc e => .ok ("Search error: " ++ e)

/-- The constant text returned by `get_debate_rules` (`tools.py` lines
57-70; the quote marks around search_web are elided). -/
def debateRulesText : String :=
  "\n    STANDING ORDERS OF THE LLM PARLIAMENT:\n" ++
  "    1. Stay on Topic: All arguments must directly address the motion.\n" ++
  "    2. No Ad Hominem: Attack the argument, not the opponent.\n" ++
  "    3. Citations: Use search_web to backup statistical claims.\n" ++
  "    4. Brevity: Speak efficiently (under 150 words preferred).\n" ++
  "    5. Decorum: Maintain a formal but passionate tone.\n    "

/-- `get_debate_rules` (`tools.py` lines 57-70): a constant lookup that
cannot fail. -/
def get_debate_rules : Res String := .ok debateRulesText

/-- An invocation of one of the two catalogued tools. -/
inductive ToolInvocation
  | searchWeb (query : String) (maxResults : Nat)
  | getDebateRules
deriving DecidableEq, Repr

/-- Dispatch of a tool invocation to the matching implementation.  The
query and result-count arguments do not influence the embedded control
flow: the transport outcome is carried by `env`. -/
def invoke (env : SearchEnv) : ToolInvocation → Res String
  | .searchWeb _ _ => search_web env
  | .getDebateRules => get_debate_rules

/-! ## Concrete collaborators used by closed theorems -/

/-- A run whose agents never elect tool calls. -/
def oracleNoTools : Oracle :=
  ⟨fun _ => "m", fun _ _ => ⟨"p", []⟩, fun _ _ => ⟨"c", []⟩, fun _ => "r"⟩

/-- A one-round, tools-disabled configuration. -/
def cfg1 : DebateConfig := ⟨"T", 1, false⟩

/-- A three-round, tools-enabled configuration. -/
def cfg3 : DebateConfig := ⟨"T", 3, true⟩

/-- An agent model that issues a tool call whenever a non-empty tool
catalog was bound to it — the behavior of a real tool-using model. -/
def llmEager : List String → DebateState → GenOut :=
  fun ts _ => ⟨"", if ts.isEmpty then [] else [⟨"call1", "search_web", "q"⟩]⟩

/-- A sample tool call. -/
def tcSample : ToolCall := ⟨"1", "search_web", "q"⟩

/-- A Proponent message carrying one tool call. -/
def proCallMsg : Message := ⟨.ai, some "Proponent", "x", [tcSample], none⟩

/-- A tool result answering `tcSample`. -/
def toolResMsg : Message := ⟨.tool, none, "r", [], some "1"⟩

/-! ## Theorems -/

/-- C6: for every state whose log is exactly one Human message, the
Moderator node takes its opening branch regardless of the configuration
(in particular regardless of `max_rounds`) and of the current round count:
the patch holds one introductory Moderator message, sets the next speaker
to the Proponent and the round count to 0. -/
theorem c6_opening_branch (gen : String) (cfg : DebateConfig) (m : Message)
    (rc : Nat) (ns : String) (hm : m.type = .human) :
    moderator_node gen ⟨[m], rc, ns, cfg⟩ =
      ⟨[aiMsg "Moderator" gen], some "pro", some 0⟩ := by
  simp [moderator_node, hm]

/-- Witness for C6 at a concrete input: one human topic message, a
configuration whose round budget is already exhausted. -/
theorem c6_opening_branch_witness :
    moderator_node "hi" ⟨[humanMsg "T"], 5, "moderator", ⟨"T", 0, true⟩⟩ =
      ⟨[aiMsg "Moderator" "hi"], some "pro", some 0⟩ :=
  c6_opening_branch "hi" ⟨"T", 0, true⟩ (humanMsg "T") 5 "moderator" rfl

/-- C9: the Proponent, Critic and ToolExecutor node patches carry only new
messages — their `next_speaker` and `round_count` entries are absent, so
merging them leaves both fields unchanged — while every branch of the
Moderator node does set `next_speaker`. -/
theorem c9_only_moderator_sets_speaker (p c : List String → DebateState → GenOut)
    (run : ToolCall → String) (g : String) (s : DebateState) :
    (pro_agent_node p s).next_speaker = none ∧
    (pro_agent_node p s).round_count = none ∧
    (con_agent_node c s).next_speaker = none ∧
    (con_agent_node c s).round_count = none ∧
    (tool_node run s).next_speaker = none ∧
    (tool_node run s).round_count = none ∧
    (applyPatch s (pro_agent_node p s)).next_speaker = s.next_speaker ∧
    (applyPatch s (pro_agent_node p s)).round_count = s.round_count ∧
    (applyPatch s (con_agent_node c s)).next_speaker = s.next_speaker ∧
    (applyPatch s (con_agent_node c s)).round_count = s.round_count ∧
    (applyPatch s (tool_node run s)).next_speaker = s.next_speaker ∧
    (applyPatch s (tool_node run s)).round_count = s.round_count ∧
    (moderator_node g s).next_speaker.isSome = true := by
  refine ⟨rfl, rfl, rfl, rfl, rfl, rfl, rfl, rfl, rfl, rfl, rfl, rfl, ?_⟩
  unfold moderator_node
  dsimp only
  split
  · rfl
  · split
    · rfl
    · split
      · rfl
      · split
        · rfl
        · rfl

/-- C3 (code evaluated at the failing input): with `enable_tools = false`
in the configuration, the Proponent node still binds the non-empty tool
catalog to its model, so a model that uses the catalog makes the node emit
a message carrying tool calls, and the router then sends the run into the
tool sub-loop.  The flag is never consulted by `debate_graph.py`. -/
theorem c3_tools_flag_ignored :
    (⟨[humanMsg "T"], 0, "pro", ⟨"T", 3, false⟩⟩ : DebateState).config.enable_tools = false ∧
    get_tools_list ≠ [] ∧
    ((pro_agent_node llmEager
        ⟨[humanMsg "T"], 0, "pro", ⟨"T", 3, false⟩⟩).messages.headD dummyMsg).tool_calls ≠ [] ∧
    router (applyPatch ⟨[humanMsg "T"], 0, "pro", ⟨"T", 3, false⟩⟩
        (pro_agent_node llmEager ⟨[humanMsg "T"], 0, "pro", ⟨"T", 3, false⟩⟩)) =
      some .tools := by
  decide

/-- C8: tool invocation is total — for every catalogued tool and every
environment the call returns result text and never raises; a missing API
key, a non-200 HTTP status and a transport exception each come back as
human-readable text, and the rules lookup is a constant. -/
theorem c8_tool_invocation_total :
    (∀ (env : SearchEnv) (call : ToolInvocation), ∃ t, invoke env call = .ok t) ∧
    (∀ (http : Res HttpResp) (q : String) (n : Nat),
      invoke ⟨none, http⟩ (.searchWeb q n) =
        .ok "Error: Web Search is disabled (No BRAVE_API_KEY found in .env).") ∧
    (∀ (k : String) (resp : HttpResp) (q : String) (n : Nat), resp.status_code ≠ 200 →
      invoke ⟨some k, .ok resp⟩ (.searchWeb q n) =
        .ok ("Search failed with status " ++ toString resp.status_code)) ∧
    (∀ (k e : String) (q : String) (n : Nat),
      invoke ⟨some k, .exc e⟩ (.searchWeb q n) = .ok ("Search error: " ++ e)) ∧
    (∀ env : SearchEnv, invoke env .getDebateRules = .ok debateRulesText) := by
  refine ⟨?_, ?_, ?_, ?_, ?_⟩
  · intro env call
    obtain ⟨ak, http⟩ := env
    cases call with
    | getDebateRules => exact ⟨debateRulesText, rfl⟩
    | searchWeb q n =>
      show ∃ t, search_web ⟨ak, http⟩ = .ok t
      cases ak with
      | none => exact ⟨_, rfl⟩
      | some k =>
        cases h : searchTryBlock ⟨some k, http⟩ with
        | ok t => exact ⟨t, by simp [search_web, h]⟩
        | exc e => exact ⟨"Search error: " ++ e, by simp [search_web, h]⟩
  · intro http q n
    rfl
  · intro k resp q n hst
    show search_web ⟨some k, .ok resp⟩ = _
    simp [search_web, searchTryBlock, hst]
  · intro k e q n
    rfl
  · intro env
    rfl

/-- Witness for C8 at a concrete input: a present key with a 404 response
is delivered as result text. -/
theorem c8_tool_invocation_total_witness :
    invoke ⟨some "k", .ok ⟨404, .ok none⟩⟩ (.searchWeb "q" 3) =
      .ok ("Search failed with status " ++ toString (404 : Nat)) :=
  c8_tool_invocation_total.2.2.1 "k" ⟨404, .ok none⟩ "q" 3 (by decide)

/-- C7: on every state with a most recent message the router answers
(never an error) and follows the priority order: an AI message carrying
tool calls goes to the tool node; otherwise a Proponent or Critic sender
goes to the Moderator; otherwise `next_speaker` is consulted
("finish" terminates, "pro"/"con" select the agents); any other value —
including an unrecognized or empty sender with no prior agent message —
falls back to the Moderator. -/
theorem c7_router_total_priority (s : DebateState) (last : Message)
    (h : s.messages.getLast? = some last) :
    (router s).isSome = true ∧
    (last.type = .ai ∧ last.tool_calls ≠ [] → router s = some .tools) ∧
    (¬(last.type = .ai ∧ last.tool_calls ≠ []) →
      (last.name ∈ agentSenders → router s = some .moderator) ∧
      (last.name ∉ agentSenders →
        (s.next_speaker = "finish" → router s = some .terminal) ∧
        (s.next_speaker = "pro" → router s = some .pro_agent) ∧
        (s.next_speaker = "con" → router s = some .con_agent) ∧
        (s.next_speaker ≠ "finish" → s.next_speaker ≠ "pro" → s.next_speaker ≠ "con" →
          router s = some .moderator))) := by
  unfold router
  rw [h]
  by_cases h1 : last.type = .ai ∧ last.tool_calls ≠ []
  · simp [h1]
  · by_cases h2 : last.name ∈ agentSenders
    · simp [h1, h2]
    · by_cases h3 : s.next_speaker = "finish"
      · simp [h1, h2, h3]
      · by_cases h4 : s.next_speaker = "pro"
        · simp [h1, h2, h3, h4]
        · by_cases h5 : s.next_speaker = "con" <;> simp [h1, h2, h3, h4, h5]

/-- Witness for C7 at the spec's scenario: the most recent message has the
unrecognized sender "" and no prior agent message exists; the router
defaults to the Moderator without error. -/
theorem c7_router_total_priority_witness :
    router ⟨[⟨.ai, some "", "x", [], none⟩], 0, "moderator", ⟨"T", 3, true⟩⟩ =
      some .moderator := by
  have h := c7_router_total_priority
    ⟨[⟨.ai, some "", "x", [], none⟩], 0, "moderator", ⟨"T", 3, true⟩⟩
    ⟨.ai, some "", "x", [], none⟩ rfl
  exact ((h.2.2 (by decide)).2 (by decide)).2.2.2 (by decide) (by decide) (by decide)

/-- C2: whenever the tool router runs after a tool result and the caller
scan resolves a debating agent, it forces the Moderator handover exactly
when the consecutive same-caller (call, result) chain count has reached 2
— never below 2, and as soon as 2 is reached — and below the bound it
routes back to the calling agent's own node. -/
theorem c2_tool_loop_guard (s : DebateState) (last : Message)
    (hlast : s.messages.getLast? = some last) (htool : last.type = .tool)
    (hcaller : callerOf s.messages = some "Proponent" ∨
      callerOf s.messages = some "Critic") :
    (tool_router s = some .moderator ↔
      2 ≤ tool_chain_count (callerOf s.messages) s.messages) ∧
    (tool_chain_count (callerOf s.messages) s.messages < 2 →
      tool_router s = some
        (if callerOf s.messages = some "Proponent" then .pro_agent else .con_agent)) := by
  unfold tool_router
  rw [hlast]
  by_cases h2 : 2 ≤ tool_chain_count (callerOf s.messages) s.messages
  · simp [h2]
  · rcases hcaller with hC | hC <;> simp [hC, h2]

/-- Witness for C2 at a concrete input: two consecutive Proponent
(call, result) pairs force the handover to the Moderator. -/
theorem c2_tool_loop_guard_witness :
    tool_router ⟨[proCallMsg, toolResMsg, proCallMsg, toolResMsg], 0, "pro", cfg3⟩ =
      some .moderator :=
  (c2_tool_loop_guard ⟨[proCallMsg, toolResMsg, proCallMsg, toolResMsg], 0, "pro", cfg3⟩
    toolResMsg (by decide) (by decide) (Or.inl (by decide))).1.mpr (by decide)

/-- Auxiliary for C10: walking backward over a non-empty block of tool
results produced by one AI message contributes exactly one increment (when
that message belongs to the caller), after which the walk continues behind
the AI message. -/
theorem chainCountAux_tool_block (c : Option String) (a : Message)
    (l : List Message) (us : List Message) (hus : us ≠ [])
    (htool : ∀ t ∈ us, t.type = .tool) (ha : a.type = .ai) :
    chainCountAux c (us ++ a :: l) =
      chainCountAux c (a :: l) + (if a.name = c then 1 else 0) := by
  induction us with
  | nil => exact absurd rfl hus
  | cons t us ih =>
    cases us with
    | nil =>
      have ht : t.type = .tool := htool t (by simp)
      show chainCountAux c (t :: a :: l) = _
      by_cases hn : a.name = c
      · rw [chainCountAux]
        simp [ht, ha, hn]
      · rw [chainCountAux]
        simp [ht, ha, hn]
    | cons t' us' =>
      have ht : t.type = .tool := htool t (by simp)
      have ht' : t'.type = .tool := htool t' (by simp)
      show chainCountAux c (t :: t' :: (us' ++ a :: l)) = _
      rw [chainCountAux]
      have h1 : ¬(t.type = .tool ∧ t'.type = .ai ∧ t'.name = c) := by
        simp [ht']
      have h2 : ¬(t.type = .ai ∧ t.name ≠ c) := by
        simp [ht]
      simp only [h1, h2, if_false]
      exact ih (by simp) (fun x hx => htool x (by simp [hx]))

/-- C10: in the tool-loop guard's backward count, an AI message followed by
a non-empty block of consecutive tool results contributes the same amount
as with a single adjacent result — exactly one increment when the message
is the caller's — no matter how many tool calls it issued and how many
results follow it. -/
theorem c10_pair_counted_once (pre : List Message) (a : Message)
    (ts : List Message) (c : Option String) (ha : a.type = .ai)
    (hts : ts ≠ []) (htool : ∀ t ∈ ts, t.type = .tool) :
    tool_chain_count c (pre ++ a :: ts) =
      tool_chain_count c (pre ++ [a]) + (if a.name = c then 1 else 0) := by
  unfold tool_chain_count
  have h1 : (pre ++ a :: ts).reverse = ts.reverse ++ a :: pre.reverse := by
    simp
  have h2 : (pre ++ [a]).reverse = a :: pre.reverse := by
    simp
  rw [h1, h2]
  exact chainCountAux_tool_block c a pre.reverse ts.reverse
    (by simpa using hts) (fun t htm => htool t (by simpa using htm)) ha

/-- Witness for C10 at a concrete input: one Proponent message with two
tool calls followed by three tool results counts once. -/
theorem c10_pair_counted_once_witness :
    tool_chain_count (some "Proponent")
        ([aiMsg "Moderator" "m"] ++ ⟨.ai, some "Proponent", "x", [tcSample, tcSample], none⟩ ::
          [toolResMsg, toolResMsg, toolResMsg]) =
      tool_chain_count (some "Proponent")
        ([aiMsg "Moderator" "m"] ++ [⟨.ai, some "Proponent", "x", [tcSample, tcSample], none⟩]) +
        (if (⟨.ai, some "Proponent", "x", [tcSample, tcSample], none⟩ : Message).name =
            some "Proponent" then 1 else 0) :=
  c10_pair_counted_once [aiMsg "Moderator" "m"]
    ⟨.ai, some "Proponent", "x", [tcSample, tcSample], none⟩
    [toolResMsg, toolResMsg, toolResMsg] (some "Proponent") rfl (by decide) (by decide)

/-- C1 counterexample: on a run with tools disabled, `max_rounds = 1` and
agents that emit no tool calls, the engine's node sequence is NOT
Moderator, Proponent, Moderator, Critic, Moderator — the closing test uses
the pre-increment round count, so a further Proponent turn and a seventh
Moderator execution occur before the closing branch fires. -/
theorem c1_sequence_counterexample :
    visited oracleNoTools 8 (initExec ⟨"T", 1, false⟩ "T") ≠
      [.moderator, .pro_agent, .moderator, .con_agent, .moderator] := by
  simp [oracleNoTools, visited, step, runNode, routeFrom, applyPatch, moderator_node,
    pro_agent_node, con_agent_node, router, tool_router, initExec, humanMsg, aiMsg,
    agentSenders, resolvedSpeaker, dummyMsg, get_tools_list]

/-- C1 as amended: with tools disabled, `max_rounds = 1` and agents that
emit no tool calls, the execution sequence is Moderator(open), Proponent,
Moderator(transition), Critic, Moderator(transition, incrementing the
round count to 1 and appointing the Proponent), Proponent,
Moderator(close, Finish); the engine then terminates with a final round
count of 1. -/
theorem c1_run_sequence (O : Oracle) (t : String)
    (hp : ∀ ts s, (O.proGen ts s).tool_calls = [])
    (hc : ∀ ts s, (O.conGen ts s).tool_calls = []) :
    visited O 8 (initExec ⟨t, 1, false⟩ t) =
      [.moderator, .pro_agent, .moderator, .con_agent, .moderator, .pro_agent, .moderator] ∧
    (runN O 7 (initExec ⟨t, 1, false⟩ t)).state.round_count = 1 ∧
    (runN O 7 (initExec ⟨t, 1, false⟩ t)).node = .terminal := by
  obtain ⟨mg, pg, cg, te⟩ := O
  have hpg : pg = fun ts s => ⟨(pg ts s).content, []⟩ := by
    funext ts s
    have h := hp ts s
    dsimp only at h
    cases hg : pg ts s with
    | mk c tcs =>
      rw [hg] at h
      dsimp only at h
      rw [h]
  have hcg : cg = fun ts s => ⟨(cg ts s).content, []⟩ := by
    funext ts s
    have h := hc ts s
    dsimp only at h
    cases hg : cg ts s with
    | mk c tcs =>
      rw [hg] at h
      dsimp only at h
      rw [h]
  rw [hpg, hcg]
  refine ⟨?_, ?_, ?_⟩ <;>
    simp [visited, runN, step, runNode, routeFrom, applyPatch, moderator_node,
      pro_agent_node, con_agent_node, router, tool_router, initExec, humanMsg, aiMsg,
      agentSenders, resolvedSpeaker, dummyMsg, get_tools_list]

/-- Witness for the amended C1 at a concrete run. -/
theorem c1_run_sequence_witness :
    visited oracleNoTools 8 (initExec ⟨"T", 1, false⟩ "T") =
      [.moderator, .pro_agent, .moderator, .con_agent, .moderator, .pro_agent, .moderator] ∧
    (runN oracleNoTools 7 (initExec ⟨"T", 1, false⟩ "T")).state.round_count = 1 ∧
    (runN oracleNoTools 7 (initExec ⟨"T", 1, false⟩ "T")).node = .terminal :=
  c1_run_sequence oracleNoTools "T" (fun _ _ => rfl) (fun _ _ => rfl)

/-- The moderator's patch always holds exactly the one generated Moderator
message, in every branch. -/
theorem moderator_messages (g : String) (s : DebateState) :
    (moderator_node g s).messages = [aiMsg "Moderator" g] := by
  unfold moderator_node
  dsimp only
  split
  · rfl
  · split
    · rfl
    · split
      · rfl
      · split
        · rfl
        · rfl

/-- The moderator's patch either appoints "pro" or "con", or is exactly the
closing patch appointing "finish". -/
theorem moderator_next_cases (g : String) (s : DebateState) :
    (moderator_node g s).next_speaker = some "pro" ∨
    (moderator_node g s).next_speaker = some "con" ∨
    moderator_node g s = ⟨[aiMsg "Moderator" g], some "finish", none⟩ := by
  unfold moderator_node
  dsimp only
  split
  · exact Or.inl rfl
  · split
    · exact Or.inr (Or.inr rfl)
    · split
      · exact Or.inr (Or.inl rfl)
      · split
        · exact Or.inl rfl
        · split
          · exact Or.inl rfl
          · exact Or.inr (Or.inl rfl)

/-- After merging the moderator's closing patch, the main router terminates:
the last message is the Moderator's own (no tool calls, not an agent
sender) and the next speaker is "finish". -/
theorem router_mod_finish (s : DebateState) (g : String) (rc : Option Nat) :
    router (applyPatch s ⟨[aiMsg "Moderator" g], some "finish", rc⟩) = some .terminal := by
  unfold router applyPatch
  simp [aiMsg, agentSenders]

/-- Engine invariant: on every reachable execution the message log is
non-empty, and a one-message log still has round count 0 (the log only
ever grows, and it has length 1 exactly at the start). -/
theorem reaches_inv (O : Oracle) (e : Exec) (h : Reaches O e) :
    e.state.messages ≠ [] ∧
      (e.state.messages.length = 1 → e.state.round_count = 0) := by
  induction h with
  | init cfg t => exact ⟨by simp [initExec, humanMsg], fun _ => rfl⟩
  | next hr ih =>
    rename_i e'
    obtain ⟨hne, hlen⟩ := ih
    cases hn : e'.node with
    | terminal =>
      simp only [step, hn]
      exact ⟨hne, hlen⟩
    | error =>
      simp only [step, hn]
      exact ⟨hne, hlen⟩
    | moderator =>
      constructor
      · simp [step, hn, applyPatch, runNode, moderator_messages, hne]
      · intro hl
        exfalso
        simp [step, hn, applyPatch, runNode, moderator_messages] at hl
        exact hne hl
    | pro_agent =>
      constructor
      · simp [step, hn, applyPatch, runNode, pro_agent_node, hne]
      · intro hl
        exfalso
        simp [step, hn, applyPatch, runNode, pro_agent_node] at hl
        exact hne hl
    | con_agent =>
      constructor
      · simp [step, hn, applyPatch, runNode, con_agent_node, hne]
      · intro hl
        exfalso
        simp [step, hn, applyPatch, runNode, con_agent_node] at hl
        exact hne hl
    | tools =>
      constructor
      · simp [step, hn, applyPatch, runNode, tool_node, hne]
      · intro hl
        simp [step, hn, applyPatch, runNode, tool_node] at hl ⊢
        have hpos : 0 < e'.state.messages.length := List.length_pos.mpr hne
        have h1 : e'.state.messages.length = 1 := by omega
        exact hlen h1

/-- Engine invariant: "finish" is terminal — on every reachable execution
whose state already carries `next_speaker = "finish"`, the pending node is
langgraph's END. -/
theorem finish_terminal (O : Oracle) (e : Exec) (h : Reaches O e) :
    e.state.next_speaker = "finish" → e.node = .terminal := by
  induction h with
  | init cfg t =>
    intro hf
    simp [initExec] at hf
  | next hr ih =>
    rename_i e'
    intro hf
    cases hn : e'.node with
    | terminal =>
      simp [step, hn]
    | error =>
      simp only [step, hn] at hf
      have := ih hf
      rw [hn] at this
      exact absurd this (by simp)
    | moderator =>
      rcases moderator_next_cases (O.moderatorGen e'.state) e'.state with hm | hm | hm
      · exfalso
        simp [step, hn, applyPatch, runNode, hm] at hf
      · exfalso
        simp [step, hn, applyPatch, runNode, hm] at hf
      · simp [step, hn, runNode, hm, routeFrom, router_mod_finish]
    | pro_agent =>
      simp only [step, hn] at hf
      simp [applyPatch, runNode, pro_agent_node] at hf
      have := ih hf
      rw [hn] at this
      exact absurd this (by simp)
    | con_agent =>
      simp only [step, hn] at hf
      simp [applyPatch, runNode, con_agent_node] at hf
      have := ih hf
      rw [hn] at this
      exact absurd this (by simp)
    | tools =>
      simp only [step, hn] at hf
      simp [applyPatch, runNode, tool_node] at hf
      have := ih hf
      rw [hn] at this
      exact absurd this (by simp)

/-- C5: on every reachable execution of a conversation whose round budget
is positive, (a) entering the Moderator with `round_count ≥ max_rounds`
yields a merged state whose next speaker is Finish and immediately routes
to END, and (b) once `next_speaker` is "finish" the pending node is END
and the engine is stuck there — no Proponent, Critic or ToolExecutor node
ever executes again. -/
theorem c5_finish_one_way (O : Oracle) (e : Exec) (h : Reaches O e)
    (hmax : 1 ≤ e.state.config.max_rounds) :
    (e.node = .moderator → e.state.config.max_rounds ≤ e.state.round_count →
      (step O e).state.next_speaker = "finish" ∧ (step O e).node = .terminal) ∧
    (e.state.next_speaker = "finish" → e.node = .terminal ∧ step O e = e) := by
  constructor
  · intro hn hrc
    have hinv := reaches_inv O e h
    have hop : ¬(e.state.messages.length = 1 ∧
        (e.state.messages.head?.getD dummyMsg).type = .human) := by
      rintro ⟨hl, -⟩
      have h0 := hinv.2 hl
      omega
    have hmod : moderator_node (O.moderatorGen e.state) e.state =
        ⟨[aiMsg "Moderator" (O.moderatorGen e.state)], some "finish", none⟩ := by
      unfold moderator_node
      simp [hop, hrc]
    constructor
    · simp [step, hn, runNode, hmod, applyPatch]
    · simp [step, hn, runNode, hmod, routeFrom, router_mod_finish]
  · intro hf
    have hterm := finish_terminal O e h hf
    exact ⟨hterm, by simp [step, hterm]⟩

/-- Witness for C5: after six engine steps of a concrete one-round run the
Moderator is entered with `round_count = 1 ≥ max_rounds`; the step sets
"finish" and routes to END. -/
theorem c5_finish_one_way_witness :
    (step oracleNoTools (runN oracleNoTools 6 (initExec cfg1 "T"))).state.next_speaker =
        "finish" ∧
    (step oracleNoTools (runN oracleNoTools 6 (initExec cfg1 "T"))).node = .terminal :=
  (c5_finish_one_way oracleNoTools (runN oracleNoTools 6 (initExec cfg1 "T"))
    ((((((Reaches.init cfg1 "T").next).next).next).next).next).next
    (by decide)).1 (by decide) (by decide)

/-- C4: across every engine step from a reachable execution, the round
count never decreases, and it increases — by exactly 1 — precisely when
the Moderator runs its transition branch and resolves the last agent
speaker to be the Critic; every other node and branch leaves it
unchanged. -/
theorem c4_round_count_increment (O : Oracle) (e : Exec) (h : Reaches O e) :
    e.state.round_count ≤ (step O e).state.round_count ∧
    (step O e).state.round_count =
      e.state.round_count + (if criticTransition e then 1 else 0) := by
  have hinv := reaches_inv O e h
  suffices heq : (step O e).state.round_count =
      e.state.round_count + (if criticTransition e then 1 else 0) by
    exact ⟨by rw [heq]; exact Nat.le_add_right _ _, heq⟩
  cases hn : e.node with
  | terminal => simp [step, hn, criticTransition]
  | error => simp [step, hn, criticTransition]
  | pro_agent => simp [step, hn, applyPatch, runNode, pro_agent_node, criticTransition]
  | con_agent => simp [step, hn, applyPatch, runNode, con_agent_node, criticTransition]
  | tools => simp [step, hn, applyPatch, runNode, tool_node, criticTransition]
  | moderator =>
    by_cases h1 : e.state.messages.length = 1 ∧
        (e.state.messages.head?.getD dummyMsg).type = .human
    · have h0 := hinv.2 h1.1
      simp [step, hn, applyPatch, runNode, moderator_node, h1, criticTransition, h0]
    · by_cases h2 : e.state.config.max_rounds ≤ e.state.round_count
      · simp [step, hn, applyPatch, runNode, moderator_node, h1, h2, criticTransition]
      · by_cases h3 : resolvedSpeaker e.state = some "Proponent"
        · simp [step, hn, applyPatch, runNode, moderator_node, h1, h2, h3, criticTransition]
        · by_cases h4 : resolvedSpeaker e.state = some "Critic"
          · simp [step, hn, applyPatch, runNode, moderator_node, h1, h2, h3, h4,
              criticTransition]
          · simp [step, hn, applyPatch, runNode, moderator_node, h1, h2, h3, h4,
              criticTransition]

/-- Witness for C4 at the initial execution of a concrete run: the opening
step leaves the round count at 0, matching the increment formula. -/
theorem c4_round_count_increment_witness :
    (initExec cfg3 "T").state.round_count ≤
        (step oracleNoTools (initExec cfg3 "T")).state.round_count ∧
    (step oracleNoTools (initExec cfg3 "T")).state.round_count =
      (initExec cfg3 "T").state.round_count +
        (if criticTransition (initExec cfg3 "T") then 1 else 0) :=
  c4_round_count_increment oracleNoTools (initExec cfg3 "T") (Reaches.init cfg3 "T")

end Parliament
